import Mathlib

/-!
Verification of the task-tracking backend's status-resolution engine and
assignment-request workflow.  The definitions below are a shallow embedding of
`src/controllers/taskControllers.js` (the task controller together with the
assignment controller that is bundled in the same file): document-store
collections become Lean lists, Mongo `find`/`findById`/`save` become list
lookups and in-place replacement by id, and each HTTP handler becomes a pure
function from the store state and request parameters to an outcome paired with
the resulting state.
-/

namespace KPRHI

/-- Task status values of the Task schema
(`Pending | In Progress | Completed | Rejected | Pending Approval`). -/
inductive TaskStatus where
  | Pending
  | InProgress
  | Completed
  | Rejected
  | PendingApproval
deriving DecidableEq

/-- Lifecycle status of an assignment request (`Pending | Approved | Rejected`). -/
inductive ReqStatus where
  | Pending
  | Approved
  | Rejected
deriving DecidableEq

/-- Task priority (`Low | Medium | High`). -/
inductive Priority where
  | Low
  | Medium
  | High
deriving DecidableEq

/-- One `todoChecklist` entry: `{text, completed}`. -/
structure ChecklistItem where
  text : String
  completed : Bool
deriving DecidableEq

/-- The Task document, restricted to the fields the status engine reads:
`_id`, `assignedTo` (user ids), `todoChecklist`, `progress`, `status`,
`priority`.  User ids are modelled as naturals. -/
structure Task where
  id : Nat
  assignedTo : List Nat
  todoChecklist : List ChecklistItem
  progress : Nat
  status : TaskStatus
  priority : Priority
deriving DecidableEq

/-- The TaskAssignmentRequest document: `_id`, `taskId`, `assignedToUserId`,
`assignedByAdminId`, `status`, `rejectionReason`. -/
structure AssignmentRequest where
  id : Nat
  taskId : Nat
  assignedToUserId : Nat
  assignedByAdminId : Nat
  status : ReqStatus
  rejectionReason : Option String
deriving DecidableEq

/-- The whole persistent state: the Task collection and the
TaskAssignmentRequest collection. -/
structure SysState where
  tasks : List Task
  requests : List AssignmentRequest
deriving DecidableEq

/-- `Task.findById` / `findOne` by `_id` on the task collection. -/
def findTask (tasks : List Task) (taskId : Nat) : Option Task :=
  tasks.find? (fun t => decide (t.id = taskId))

/-- `TaskAssignmentRequest.findById` on the request collection. -/
def findRequest (requests : List AssignmentRequest) (requestId : Nat) :
    Option AssignmentRequest :=
  requests.find? (fun r => decide (r.id = requestId))

/-- Mongoose `task.save()`: replace the document with the same `_id`. -/
def saveTask (tasks : List Task) (t : Task) : List Task :=
  tasks.map (fun q => if q.id = t.id then t else q)

/-- Mongoose `request.save()`: replace the document with the same `_id`. -/
def saveRequest (requests : List AssignmentRequest) (r : AssignmentRequest) :
    List AssignmentRequest :=
  requests.map (fun q => if q.id = r.id then r else q)

/-- `TaskAssignmentRequest.find({taskId})`: every request of one task. -/
def requestsFor (st : SysState) (taskId : Nat) : List AssignmentRequest :=
  st.requests.filter (fun r => decide (r.taskId = taskId))

/-- The `assignmentMap` of `getTasks` read at one key: the controller iterates
`assignmentRequests.forEach` and overwrites `assignmentMap[userId]`, so the
entry for a user is the last request of that user in the fetched list. -/
def assignmentMapAt (reqs : List AssignmentRequest) (uid : Nat) :
    Option AssignmentRequest :=
  reqs.foldl (fun acc r => if r.assignedToUserId = uid then some r else acc) none

/-- `assignmentMap[uid]?.status === s` of the controller. -/
def mappedStatusIs (reqs : List AssignmentRequest) (uid : Nat) (s : ReqStatus) :
    Bool :=
  match assignmentMapAt reqs uid with
  | some r => decide (r.status = s)
  | none => false

/-- `hasPending` of `getTasks`: some value of the assignment map is `Pending`
(`Object.values(assignmentMap).some(req => req.status === "Pending")`). -/
def hasPendingB (reqs : List AssignmentRequest) : Bool :=
  reqs.any (fun r => mappedStatusIs reqs r.assignedToUserId ReqStatus.Pending)

/-- `hasApproved` of `getTasks`: some value of the assignment map is
`Approved`. -/
def hasApprovedB (reqs : List AssignmentRequest) : Bool :=
  reqs.any (fun r => mappedStatusIs reqs r.assignedToUserId ReqStatus.Approved)

/-- `allRejected` of `getTasks`: the stored `assignedTo` id list is non-empty
and every one of those users maps to a `Rejected` request. -/
def allRejectedB (task : Task) (reqs : List AssignmentRequest) : Bool :=
  !task.assignedTo.isEmpty &&
    task.assignedTo.all (fun uid => mappedStatusIs reqs uid ReqStatus.Rejected)

/-- `singleUserRejected` of `getTasks`: exactly one assigned user and that
user's mapped request is `Rejected`. -/
def singleUserRejectedB (task : Task) (reqs : List AssignmentRequest) : Bool :=
  match task.assignedTo with
  | [uid] => mappedStatusIs reqs uid ReqStatus.Rejected
  | _ => false

/-- `todoStarted` of `getTasks`: some checklist item is completed. -/
def todoStartedB (task : Task) : Bool :=
  task.todoChecklist.any (fun item => item.completed)

/-- `allTodoCompleted` of `getTasks`: the checklist is non-empty and every item
is completed. -/
def allTodoCompletedB (task : Task) : Bool :=
  decide (task.todoChecklist.length > 0) &&
    task.todoChecklist.all (fun item => item.completed)

/-- The status computed inside `getTasks` for one task (the `let status =
task.status; if ... else if ...` chain of the controller); this is the `status`
field of the returned task object. -/
def getTasksResolvedStatus (task : Task) (reqs : List AssignmentRequest) :
    TaskStatus :=
  if allRejectedB task reqs || singleUserRejectedB task reqs then
    TaskStatus.Rejected
  else if hasPendingB reqs then
    TaskStatus.PendingApproval
  else if hasApprovedB reqs && allTodoCompletedB task then
    TaskStatus.Completed
  else if hasApprovedB reqs && todoStartedB task then
    TaskStatus.InProgress
  else if hasApprovedB reqs && !todoStartedB task then
    TaskStatus.Pending
  else
    task.status

/-- `getTasks`: each task of the store is returned with the status computed by
the inline resolver over that task's assignment requests. -/
def getTasks (st : SysState) : List (Task × TaskStatus) :=
  st.tasks.map (fun t => (t, getTasksResolvedStatus t (requestsFor st t.id)))

/-- `getTaskById`: looks the task up by id and returns it as stored, with no
status recomputation. -/
def getTaskById (tasks : List Task) (taskId : Nat) : Option Task :=
  findTask tasks taskId

/-- `Math.round(100 * completedCount / totalItems)` for naturals
(`totalItems > 0`): JavaScript rounds half away from zero, which for
non-negative arguments is `⌊x + 1/2⌋ = (200c + t) / (2t)` in integer division. -/
def mathRound100 (completedCount totalItems : Nat) : Nat :=
  (200 * completedCount + totalItems) / (2 * totalItems)

/-- JavaScript `x || null` applied to an optional string: an absent or empty
(falsy) string becomes `null`. -/
def jsOrNull (s : Option String) : Option String :=
  match s with
  | some str => if str = "" then none else some str
  | none => none

/-- The status recomputation of the reject branch of
`respondToAssignmentRequest` (counts over the task's requests, direct
assignees counted as approved). -/
def rejectRecompute (task : Task) (allRequests : List AssignmentRequest) :
    TaskStatus :=
  let assignedUserIds := task.assignedTo
  let requestUserIds := allRequests.map (fun r => r.assignedToUserId)
  let directAssignedUserIds :=
    assignedUserIds.filter (fun uid => !requestUserIds.contains uid)
  let directAssignedApprovedCount := directAssignedUserIds.length
  let approvedRequestsCount :=
    (allRequests.filter (fun r => decide (r.status = ReqStatus.Approved))).length
  let rejectedRequestsCount :=
    (allRequests.filter (fun r => decide (r.status = ReqStatus.Rejected))).length
  let pendingRequestsCount :=
    (allRequests.filter (fun r => decide (r.status = ReqStatus.Pending))).length
  if decide (rejectedRequestsCount = allRequests.length) &&
      decide (directAssignedApprovedCount = 0) then
    TaskStatus.Rejected
  else if decide (pendingRequestsCount > 0) then
    TaskStatus.PendingApproval
  else if decide (approvedRequestsCount + directAssignedApprovedCount > 0) then
    TaskStatus.Pending
  else
    TaskStatus.PendingApproval

/-- Outcome of `respondToAssignmentRequest` (HTTP codes 404/403/400 mapped to
named error kinds, plus the two success messages). -/
inductive RespondOutcome where
  | requestNotFound
  | notAuthorized
  | taskNotFound
  | invalidAction
  | approved
  | rejected
deriving DecidableEq

/-- `respondToAssignmentRequest`: the full handler.  Error returns leave the
store untouched (the controller returns before any `save`). -/
def respondToAssignmentRequest (st : SysState) (requestId : Nat)
    (responderId : Nat) (action : String) (rejectionReason : Option String) :
    RespondOutcome × SysState :=
  match findRequest st.requests requestId with
  | none => (RespondOutcome.requestNotFound, st)
  | some request =>
    if request.assignedToUserId ≠ responderId then
      (RespondOutcome.notAuthorized, st)
    else if action = "approve" then
      match findTask st.tasks request.taskId with
      | none => (RespondOutcome.taskNotFound, st)
      | some task =>
        let tasks' :=
          if task.assignedTo.contains request.assignedToUserId then st.tasks
          else
            saveTask st.tasks
              { task with assignedTo := task.assignedTo ++ [request.assignedToUserId] }
        let request' :=
          { request with status := ReqStatus.Approved, rejectionReason := none }
        (RespondOutcome.approved, ⟨tasks', saveRequest st.requests request'⟩)
    else if action = "reject" then
      let request' :=
        { request with status := ReqStatus.Rejected,
                       rejectionReason := jsOrNull rejectionReason }
      let requests' := saveRequest st.requests request'
      let allRequests := requests'.filter (fun r => decide (r.taskId = request.taskId))
      match findTask st.tasks request.taskId with
      | none => (RespondOutcome.rejected, ⟨st.tasks, requests'⟩)
      | some task =>
        let task' := { task with status := rejectRecompute task allRequests }
        (RespondOutcome.rejected, ⟨saveTask st.tasks task', requests'⟩)
    else
      (RespondOutcome.invalidAction, st)

/-- Outcome of `createTaskAssignmentRequest`: 400 on a duplicate `Pending`
request for the same (task, candidate), 201 on creation. -/
inductive CreateRequestOutcome where
  | conflict
  | created
deriving DecidableEq

/-- `createTaskAssignmentRequest`: refuses when a `Pending` request for the
same (task, candidate) pair exists, otherwise appends a fresh `Pending`
request (`newId` stands for the store-generated `_id`). -/
def createTaskAssignmentRequest (st : SysState)
    (taskId assignedToUserId assignedByAdminId newId : Nat) :
    CreateRequestOutcome × SysState :=
  if st.requests.any (fun r =>
      decide (r.taskId = taskId) && decide (r.assignedToUserId = assignedToUserId) &&
        decide (r.status = ReqStatus.Pending)) then
    (CreateRequestOutcome.conflict, st)
  else
    (CreateRequestOutcome.created,
      ⟨st.tasks,
       st.requests ++
         [⟨newId, taskId, assignedToUserId, assignedByAdminId, ReqStatus.Pending, none⟩]⟩)

/-- The overload check shared by `createTask` and `checkHighPriorityTasks`:
`Task.countDocuments({assignedTo: userId, priority: "High",
status: {$ne: "Completed"}}) >= 2`. -/
def isOverloaded (tasks : List Task) (userId : Nat) : Bool :=
  decide (2 ≤ (tasks.filter (fun t =>
    t.assignedTo.contains userId && decide (t.priority = Priority.High) &&
      !decide (t.status = TaskStatus.Completed))).length)

/-- The per-candidate loop body of `createTask`: one
`createTaskAssignmentRequest` call whose response object is discarded, so a
conflict is silently swallowed; the counter models the store-generated
request ids. -/
def createTaskStep (newTaskId adminId : Nat) (acc : SysState × Nat) (u : Nat) :
    SysState × Nat :=
  match createTaskAssignmentRequest acc.1 newTaskId u adminId acc.2 with
  | (CreateRequestOutcome.created, s') => (s', acc.2 + 1)
  | (CreateRequestOutcome.conflict, _) => (acc.1, acc.2)

/-- `createTask`: partitions the candidate list by the overload check, creates
the task assigned to the non-overloaded candidates, then creates one
assignment request per overloaded candidate (`createTaskStep`).  `newTaskId`
and `baseReqId` stand for the store-generated ids; the Task schema
(`models/Task.js`, not part of the controller) supplies the defaults
`status = Pending`, `progress = 0`, which play no role in the partition.
Returns the final state and the created task. -/
def createTask (st : SysState) (assignedTo : List Nat) (priority : Priority)
    (todoChecklist : List ChecklistItem) (adminId newTaskId baseReqId : Nat) :
    SysState × Task :=
  let usersWithHighPriorityTasks := assignedTo.filter (fun u => isOverloaded st.tasks u)
  let usersWithoutHighPriorityTasks := assignedTo.filter (fun u => !isOverloaded st.tasks u)
  let task : Task :=
    ⟨newTaskId, usersWithoutHighPriorityTasks, todoChecklist, 0, TaskStatus.Pending, priority⟩
  let st1 : SysState := ⟨st.tasks ++ [task], st.requests⟩
  let stFinal :=
    (usersWithHighPriorityTasks.foldl (createTaskStep newTaskId adminId)
      (st1, baseReqId)).1
  (stFinal, task)

/-- Outcome of `updateTaskChecklist`: 404, the two 403s, or success carrying
the saved task. -/
inductive ChecklistOutcome where
  | notFound
  | notAuthorized
  | rejectedForbidden
  | ok (t : Task)
deriving DecidableEq

/-- `updateTaskChecklist`: authorization, the Rejected guard, then checklist
replacement with `progress = Math.round(100*completed/total)` (0 when empty)
and the progress-driven status.  Error returns leave the store untouched. -/
def updateTaskChecklist (tasks : List Task) (taskId userId : Nat)
    (isAdmin : Bool) (todoChecklist : List ChecklistItem) :
    ChecklistOutcome × List Task :=
  match findTask tasks taskId with
  | none => (ChecklistOutcome.notFound, tasks)
  | some task =>
    if !task.assignedTo.contains userId && !isAdmin then
      (ChecklistOutcome.notAuthorized, tasks)
    else if task.status = TaskStatus.Rejected then
      (ChecklistOutcome.rejectedForbidden, tasks)
    else
      let completedCount := (todoChecklist.filter (fun item => item.completed)).length
      let totalItems := todoChecklist.length
      let progress := if totalItems > 0 then mathRound100 completedCount totalItems else 0
      let status :=
        if progress = 100 then TaskStatus.Completed
        else if progress > 0 then TaskStatus.InProgress
        else TaskStatus.Pending
      let task' :=
        { task with todoChecklist := todoChecklist, progress := progress, status := status }
      (ChecklistOutcome.ok task', saveTask tasks task')

/-- Outcome of `updateTask`: 404 or success carrying the saved task. -/
inductive UpdateOutcome where
  | notFound
  | ok (t : Task)
deriving DecidableEq

/-- The checklist aspect of `updateTask`: `task.todoChecklist =
req.body.todoChecklist || task.todoChecklist` replaces the checklist when one
is supplied and leaves `progress` and `status` untouched (the handler's other
field updates — title, description, priority, dueDate, attachments,
assignedTo, location — do not read or write the checklist, progress or
status). -/
def updateTask (tasks : List Task) (taskId : Nat)
    (todoChecklist : Option (List ChecklistItem)) : UpdateOutcome × List Task :=
  match findTask tasks taskId with
  | none => (UpdateOutcome.notFound, tasks)
  | some task =>
    let task' := { task with todoChecklist := todoChecklist.getD task.todoChecklist }
    (UpdateOutcome.ok task', saveTask tasks task')

/-! ## The Status Resolver as the specification words it

`Resolve(checklist, assignedTo, requestsFor(task))` of the spec, written from
the spec's rule list: a map from candidate to their latest request, the
`allRejected` / `singleUserRejected` predicates, then the five precedence
rules with first match winning.  This definition is compared with the
controller's inline chain, which was translated from the source above. -/

/-- The latest request of one candidate: spec step 1 keeps, per candidate,
whichever record was written last. -/
def latestRequestFor (reqs : List AssignmentRequest) (uid : Nat) :
    Option AssignmentRequest :=
  reqs.reverse.find? (fun r => decide (r.assignedToUserId = uid))

/-- Status under the candidate-to-latest-request map of spec step 1. -/
def specStatusAt (reqs : List AssignmentRequest) (uid : Nat) : Option ReqStatus :=
  (latestRequestFor reqs uid).map (fun r => r.status)

/-- The candidates that appear in the request set (the keys of the map). -/
def candidateUserIds (reqs : List AssignmentRequest) : List Nat :=
  reqs.map (fun r => r.assignedToUserId)

/-- Spec: some mapped request is `Pending`. -/
def specAnyPendingB (reqs : List AssignmentRequest) : Bool :=
  (candidateUserIds reqs).any
    (fun uid => decide (specStatusAt reqs uid = some ReqStatus.Pending))

/-- Spec: some mapped request is `Approved`. -/
def specAnyApprovedB (reqs : List AssignmentRequest) : Bool :=
  (candidateUserIds reqs).any
    (fun uid => decide (specStatusAt reqs uid = some ReqStatus.Approved))

/-- Spec step 2: the original assigned-user set is non-empty and every one of
those users maps to a `Rejected` request. -/
def specAllRejectedB (task : Task) (reqs : List AssignmentRequest) : Bool :=
  decide (task.assignedTo ≠ []) &&
    task.assignedTo.all
      (fun uid => decide (specStatusAt reqs uid = some ReqStatus.Rejected))

/-- Spec step 3: exactly one assigned user, whose request is `Rejected`. -/
def specSingleRejectedB (task : Task) (reqs : List AssignmentRequest) : Bool :=
  decide (task.assignedTo.length = 1) &&
    task.assignedTo.all
      (fun uid => decide (specStatusAt reqs uid = some ReqStatus.Rejected))

/-- Spec: the checklist is non-empty and every item is complete. -/
def specAllCompleteB (task : Task) : Bool :=
  decide (task.todoChecklist ≠ []) &&
    task.todoChecklist.all (fun item => item.completed)

/-- Spec: at least one checklist item is complete. -/
def specAnyCompleteB (task : Task) : Bool :=
  task.todoChecklist.any (fun item => item.completed)

/-- The Status Resolver exactly as the spec lists its rules (steps 4-9, first
match wins). -/
def resolveSpec (task : Task) (reqs : List AssignmentRequest) : TaskStatus :=
  if specAllRejectedB task reqs || specSingleRejectedB task reqs then
    TaskStatus.Rejected
  else if specAnyPendingB reqs then
    TaskStatus.PendingApproval
  else if specAnyApprovedB reqs && specAllCompleteB task then
    TaskStatus.Completed
  else if specAnyApprovedB reqs && specAnyCompleteB task then
    TaskStatus.InProgress
  else if specAnyApprovedB reqs && !specAnyCompleteB task then
    TaskStatus.Pending
  else
    task.status

/-- Spec §4.2: the direct assignees — users of `assignedTo` with no associated
request at all. -/
def directAssignees (task : Task) (reqs : List AssignmentRequest) : List Nat :=
  task.assignedTo.filter
    (fun uid => decide (∀ r ∈ reqs, r.assignedToUserId ≠ uid))

/-- The reject-path recompute rule exactly as the spec words it: all requests
rejected with zero direct users gives `Rejected`; any pending gives
`Pending Approval`; a positive approved-plus-direct count gives `Pending`;
else the fallback `Pending Approval`. -/
def rejectRuleSpec (task : Task) (reqs : List AssignmentRequest) : TaskStatus :=
  if decide (∀ r ∈ reqs, r.status = ReqStatus.Rejected) &&
      decide ((directAssignees task reqs).length = 0) then
    TaskStatus.Rejected
  else if reqs.any (fun r => decide (r.status = ReqStatus.Pending)) then
    TaskStatus.PendingApproval
  else if decide
      ((reqs.filter (fun r => decide (r.status = ReqStatus.Approved))).length +
        (directAssignees task reqs).length > 0) then
    TaskStatus.Pending
  else
    TaskStatus.PendingApproval

/-! ## Concrete store states used to instantiate the theorems -/

/-- A task whose stored status is stale: one assigned user with an approved
request and an empty checklist, status still `Pending Approval`. -/
def c1Task : Task := ⟨1, [7], [], 0, TaskStatus.PendingApproval, Priority.Low⟩

def c1Req : AssignmentRequest := ⟨1, 1, 7, 2, ReqStatus.Approved, none⟩

def c1St : SysState := ⟨[c1Task], [c1Req]⟩

/-- A task awaiting its only candidate's reply. -/
def c3Task : Task := ⟨1, [], [], 0, TaskStatus.PendingApproval, Priority.Low⟩

def c3Req : AssignmentRequest := ⟨1, 1, 7, 2, ReqStatus.Pending, none⟩

def c3St : SysState := ⟨[c3Task], [c3Req]⟩

def c3TaskAfter : Task := ⟨1, [7], [], 0, TaskStatus.PendingApproval, Priority.Low⟩

def c3StAfter : SysState := ⟨[c3TaskAfter], [⟨1, 1, 7, 2, ReqStatus.Approved, none⟩]⟩

/-- Two assignees, one rejected request, one direct assignee, stored status
already `Rejected`. -/
def c4Task : Task := ⟨1, [1, 2], [], 0, TaskStatus.Rejected, Priority.Low⟩

def c4Req : AssignmentRequest := ⟨1, 1, 1, 9, ReqStatus.Rejected, none⟩

/-- Single assignee with a rejected request and a fully completed checklist. -/
def c4wTask : Task := ⟨1, [5], [⟨"", true⟩], 100, TaskStatus.Pending, Priority.Low⟩

def c4wReq : AssignmentRequest := ⟨1, 1, 5, 9, ReqStatus.Rejected, some "busy"⟩

def c5Task : Task := ⟨1, [7], [], 0, TaskStatus.PendingApproval, Priority.Low⟩

def c5Req : AssignmentRequest := ⟨1, 1, 7, 2, ReqStatus.Pending, none⟩

def c5St : SysState := ⟨[c5Task], [c5Req]⟩

/-- 200 checklist items, 199 of them completed. -/
def c6Checklist : List ChecklistItem :=
  List.replicate 199 ⟨"", true⟩ ++ [⟨"", false⟩]

def c6Task : Task := ⟨1, [], [], 0, TaskStatus.Pending, Priority.Low⟩

def c6TaskAfter : Task := ⟨1, [], c6Checklist, 100, TaskStatus.Completed, Priority.Low⟩

def c7St : SysState := ⟨[], [⟨1, 1, 2, 3, ReqStatus.Pending, none⟩]⟩

def c7StAfter : SysState := ⟨[], [⟨1, 1, 2, 3, ReqStatus.Rejected, none⟩]⟩

def c8Task : Task := ⟨1, [5], [], 0, TaskStatus.Pending, Priority.Low⟩

def c8Checklist : List ChecklistItem := [⟨"a", true⟩, ⟨"b", false⟩]

def c8TaskAfter : Task := ⟨1, [5], c8Checklist, 50, TaskStatus.InProgress, Priority.Low⟩

/-- User 7 already carries two active High-priority tasks; user 8 none. -/
def c9T1 : Task := ⟨1, [7], [], 0, TaskStatus.Pending, Priority.High⟩

def c9T2 : Task := ⟨2, [7], [], 0, TaskStatus.Pending, Priority.High⟩

def c9St : SysState := ⟨[c9T1, c9T2], []⟩

/-- A pending request pointing at a task id that is absent from the store. -/
def c10Req : AssignmentRequest := ⟨1, 9, 4, 3, ReqStatus.Pending, none⟩

def c10St : SysState := ⟨[], [c10Req]⟩

/-! ## Bridging lemmas -/

/-- The `forEach` overwrite fold is the last matching record, with the
accumulator as fallback. -/
theorem foldl_overwrite (uid : Nat) (reqs : List AssignmentRequest)
    (acc : Option AssignmentRequest) :
    reqs.foldl (fun a r => if r.assignedToUserId = uid then some r else a) acc
      = (reqs.reverse.find? (fun r => decide (r.assignedToUserId = uid))).or acc := by
  induction reqs generalizing acc with
  | nil => rfl
  | cons q rs ih =>
    rw [List.foldl_cons, ih, List.reverse_cons, List.find?_append]
    cases hfind : rs.reverse.find? (fun r => decide (r.assignedToUserId = uid)) with
    | some r => rfl
    | none =>
      by_cases hq : q.assignedToUserId = uid <;>
        simp [List.find?, hq, Option.or]

/-- The controller's assignment map agrees with the spec's latest-request
map at every key. -/
theorem assignmentMapAt_eq_latest (reqs : List AssignmentRequest) (uid : Nat) :
    assignmentMapAt reqs uid = latestRequestFor reqs uid := by
  unfold assignmentMapAt latestRequestFor
  rw [foldl_overwrite]
  cases hfind : reqs.reverse.find? (fun r => decide (r.assignedToUserId = uid)) <;>
    simp [Option.or]

/-- Pointwise agreement of the two status-at-key tests. -/
theorem mappedStatusIs_eq (reqs : List AssignmentRequest) (uid : Nat)
    (s : ReqStatus) :
    mappedStatusIs reqs uid s = decide (specStatusAt reqs uid = some s) := by
  unfold mappedStatusIs specStatusAt
  rw [assignmentMapAt_eq_latest]
  cases h : latestRequestFor reqs uid <;> simp [h, decide_eq_decide]

theorem anyMapped_eq (reqs : List AssignmentRequest) (s : ReqStatus) :
    (reqs.any fun r => mappedStatusIs reqs r.assignedToUserId s)
      = (candidateUserIds reqs).any
          (fun uid => decide (specStatusAt reqs uid = some s)) := by
  rw [Bool.eq_iff_iff]
  unfold candidateUserIds
  simp only [List.any_eq_true, List.mem_map, mappedStatusIs_eq, decide_eq_true_eq]
  constructor
  · rintro ⟨r, hr, hs⟩
    exact ⟨r.assignedToUserId, ⟨r, hr, rfl⟩, hs⟩
  · rintro ⟨uid, ⟨r, hr, rfl⟩, hs⟩
    exact ⟨r, hr, hs⟩

theorem hasPendingB_eq (reqs : List AssignmentRequest) :
    hasPendingB reqs = specAnyPendingB reqs := by
  unfold hasPendingB specAnyPendingB
  exact anyMapped_eq reqs ReqStatus.Pending

theorem hasApprovedB_eq (reqs : List AssignmentRequest) :
    hasApprovedB reqs = specAnyApprovedB reqs := by
  unfold hasApprovedB specAnyApprovedB
  exact anyMapped_eq reqs ReqStatus.Approved

theorem allRejectedB_eq (task : Task) (reqs : List AssignmentRequest) :
    allRejectedB task reqs = specAllRejectedB task reqs := by
  unfold allRejectedB specAllRejectedB
  congr 1
  · cases task.assignedTo <;> simp
  · congr 1
    funext uid
    exact mappedStatusIs_eq reqs uid ReqStatus.Rejected

theorem singleUserRejectedB_eq (task : Task) (reqs : List AssignmentRequest) :
    singleUserRejectedB task reqs = specSingleRejectedB task reqs := by
  unfold singleUserRejectedB specSingleRejectedB
  cases h : task.assignedTo with
  | nil => simp
  | cons a t =>
    cases t with
    | nil => simp [mappedStatusIs_eq]
    | cons b t2 => simp

theorem todoStartedB_eq (task : Task) :
    todoStartedB task = specAnyCompleteB task := rfl

theorem allTodoCompletedB_eq (task : Task) :
    allTodoCompletedB task = specAllCompleteB task := by
  unfold allTodoCompletedB specAllCompleteB
  congr 1
  simp [decide_eq_decide, List.length_pos]

/-- The inline status chain of `getTasks` is exactly the spec's Status
Resolver. -/
theorem resolver_eq (task : Task) (reqs : List AssignmentRequest) :
    getTasksResolvedStatus task reqs = resolveSpec task reqs := by
  unfold getTasksResolvedStatus resolveSpec
  rw [allRejectedB_eq, singleUserRejectedB_eq, hasPendingB_eq, hasApprovedB_eq,
    allTodoCompletedB_eq, todoStartedB_eq]

/-- The controller's direct-assignee list (assigned users not among the
request holders) is the spec's. -/
theorem direct_eq (task : Task) (reqs : List AssignmentRequest) :
    task.assignedTo.filter
        (fun uid => !((reqs.map (fun r => r.assignedToUserId)).contains uid))
      = directAssignees task reqs := by
  unfold directAssignees
  apply List.filter_congr
  intro uid _
  by_cases hmem : uid ∈ reqs.map (fun r => r.assignedToUserId)
  · have h1 : ¬ ∀ r ∈ reqs, r.assignedToUserId ≠ uid := by
      obtain ⟨r, hr, hru⟩ := List.mem_map.mp hmem
      exact fun hall => hall r hr hru
    simp [hmem, h1]
  · have h2 : ∀ r ∈ reqs, r.assignedToUserId ≠ uid := by
      intro r hr heq
      exact hmem (List.mem_map.mpr ⟨r, hr, heq⟩)
    simp [hmem]
    exact h2

theorem filter_length_eq_iff {α : Type} (l : List α) (p : α → Bool) :
    (l.filter p).length = l.length ↔ ∀ a ∈ l, p a = true := by
  constructor
  · intro h
    have hs : l.filter p = l :=
      List.Sublist.eq_of_length (List.filter_sublist l) h
    intro a ha
    exact List.filter_eq_self.mp hs a ha
  · intro h
    rw [List.filter_eq_self.mpr h]

theorem filter_pos_iff {α : Type} (l : List α) (p : α → Bool) :
    0 < (l.filter p).length ↔ ∃ a ∈ l, p a = true := by
  simp [List.length_pos, List.filter_eq_nil_iff]

/-- The reject-branch recompute of the controller is exactly the spec's
narrow reject rule. -/
theorem rejectRecompute_eq_spec (task : Task) (reqs : List AssignmentRequest) :
    rejectRecompute task reqs = rejectRuleSpec task reqs := by
  unfold rejectRecompute rejectRuleSpec
  dsimp only
  rw [direct_eq]
  have e1 : decide
      ((reqs.filter fun r => decide (r.status = ReqStatus.Rejected)).length = reqs.length)
      = decide (∀ r ∈ reqs, r.status = ReqStatus.Rejected) := by
    rw [decide_eq_decide, filter_length_eq_iff]
    simp
  have e2 : decide
      (0 < (reqs.filter fun r => decide (r.status = ReqStatus.Pending)).length)
      = (reqs.any fun r => decide (r.status = ReqStatus.Pending)) := by
    rw [Bool.eq_iff_iff]
    simp [filter_pos_iff, List.any_eq_true]
  rw [e1, e2]

/-- Saving a task found by id makes the saved version the one found. -/
theorem findTask_saveTask (tasks : List Task) (taskId : Nat) (t t' : Task)
    (hfind : findTask tasks taskId = some t) (hid : t'.id = t.id) :
    findTask (saveTask tasks t') taskId = some t' := by
  have hti : t.id = taskId := by
    have := List.find?_some hfind
    simpa using this
  unfold findTask saveTask at *
  induction tasks with
  | nil => simp at hfind
  | cons q rest ih =>
    by_cases hq : q.id = taskId
    · rw [List.find?_cons_of_pos _ (by simpa using hq)] at hfind
      have hqt : q = t := by simpa using hfind
      have hmap : (q :: rest).map (fun x => if x.id = t'.id then t' else x)
          = t' :: rest.map (fun x => if x.id = t'.id then t' else x) := by
        simp [hqt, hid, hti]
      rw [hmap]
      exact List.find?_cons_of_pos _ (by simp [hid, hti])
    · rw [List.find?_cons_of_neg _ (by simpa using hq)] at hfind
      have hq' : ¬ q.id = t'.id := by
        rw [hid, hti]
        exact hq
      have hmap : (q :: rest).map (fun x => if x.id = t'.id then t' else x)
          = q :: rest.map (fun x => if x.id = t'.id then t' else x) := by
        simp [hq']
      rw [hmap]
      rw [List.find?_cons_of_neg _ (by simpa using hq)]
      exact ih hfind

/-- `Math.round(100 * n / n) = 100`. -/
theorem mathRound100_self (n : Nat) (hn : 0 < n) : mathRound100 n n = 100 := by
  unfold mathRound100
  have h2 : 200 * n + n = 2 * n * 100 + n := by ring
  rw [h2, Nat.mul_add_div (by omega), Nat.div_eq_of_lt (by omega)]

/-- A mapped status comes from a request of the list with the right key. -/
theorem specStatusAt_eq_some (reqs : List AssignmentRequest) (uid : Nat)
    (s : ReqStatus) (h : specStatusAt reqs uid = some s) :
    ∃ r ∈ reqs, r.assignedToUserId = uid ∧ r.status = s := by
  unfold specStatusAt latestRequestFor at h
  cases hf : reqs.reverse.find? (fun r => decide (r.assignedToUserId = uid)) with
  | none => rw [hf] at h; simp at h
  | some r =>
    rw [hf] at h
    have hs : r.status = s := by simpa using h
    have hm := List.mem_of_find?_eq_some hf
    have hp := List.find?_some hf
    exact ⟨r, List.mem_reverse.mp hm, by simpa using hp, hs⟩

/-- A candidate that holds some request has a mapped status. -/
theorem specStatusAt_isSome (reqs : List AssignmentRequest) (uid : Nat)
    (h : ∃ r ∈ reqs, r.assignedToUserId = uid) :
    ∃ s, specStatusAt reqs uid = some s := by
  unfold specStatusAt latestRequestFor
  cases hf : reqs.reverse.find? (fun r => decide (r.assignedToUserId = uid)) with
  | some r => exact ⟨r.status, rfl⟩
  | none =>
    obtain ⟨r, hr, hu⟩ := h
    have := List.find?_eq_none.mp hf r (List.mem_reverse.mpr hr)
    simp [hu] at this

/-- A user with no request at all maps to nothing. -/
theorem specStatusAt_eq_none (reqs : List AssignmentRequest) (uid : Nat)
    (h : ∀ r ∈ reqs, r.assignedToUserId ≠ uid) :
    specStatusAt reqs uid = none := by
  unfold specStatusAt latestRequestFor
  have : reqs.reverse.find? (fun r => decide (r.assignedToUserId = uid)) = none := by
    rw [List.find?_eq_none]
    intro r hr
    simp [h r (List.mem_reverse.mp hr)]
  rw [this]
  rfl

/-- A successful respond (approved or rejected) replaces exactly one request,
whose new status is not `Pending`. -/
theorem respond_requests_shape (st : SysState) (reqId respId : Nat)
    (action : String) (reason : Option String) (outcome : RespondOutcome)
    (st' : SysState)
    (h : respondToAssignmentRequest st reqId respId action reason = (outcome, st'))
    (hout : outcome = RespondOutcome.approved ∨ outcome = RespondOutcome.rejected) :
    ∃ r', r'.id = reqId ∧ r'.status ≠ ReqStatus.Pending
      ∧ st'.requests = saveRequest st.requests r' := by
  unfold respondToAssignmentRequest at h
  split at h
  · rcases hout with ho | ho <;> subst ho <;> simp at h
  · rename_i request hfr
    have hrid : request.id = reqId := by
      simpa using List.find?_some hfr
    split at h
    · rcases hout with ho | ho <;> subst ho <;> simp at h
    · split at h
      · split at h
        · rcases hout with ho | ho <;> subst ho <;> simp at h
        · rename_i task hft
          simp only [Prod.mk.injEq] at h
          refine ⟨{ request with status := ReqStatus.Approved, rejectionReason := none },
            hrid, by simp, ?_⟩
          rw [← h.2]
      · split at h
        · split at h
          · simp only [Prod.mk.injEq] at h
            refine ⟨{ request with status := ReqStatus.Rejected, rejectionReason := jsOrNull reason }, hrid, by simp, ?_⟩
            rw [← h.2]
          · rename_i task hft
            simp only [Prod.mk.injEq] at h
            refine ⟨{ request with status := ReqStatus.Rejected, rejectionReason := jsOrNull reason }, hrid, by simp, ?_⟩
            rw [← h.2]
        · rcases hout with ho | ho <;> subst ho <;> simp at h

/-- One `createTaskStep` never touches the task collection. -/
theorem createStep_tasks (tid aid : Nat) (acc : SysState × Nat) (u : Nat) :
    (createTaskStep tid aid acc u).1.tasks = acc.1.tasks := by
  by_cases hc : (acc.1.requests.any fun r =>
      decide (r.taskId = tid) && decide (r.assignedToUserId = u) &&
        decide (r.status = ReqStatus.Pending)) = true <;>
    simp [createTaskStep, createTaskAssignmentRequest, hc]

/-- One `createTaskStep` leaves the request collection alone or appends one
fresh pending request for its candidate. -/
theorem createStep_requests (tid aid : Nat) (acc : SysState × Nat) (u : Nat) :
    (createTaskStep tid aid acc u).1.requests = acc.1.requests
    ∨ (createTaskStep tid aid acc u).1.requests
        = acc.1.requests ++ [⟨acc.2, tid, u, aid, ReqStatus.Pending, none⟩] := by
  by_cases hc : (acc.1.requests.any fun r =>
      decide (r.taskId = tid) && decide (r.assignedToUserId = u) &&
        decide (r.status = ReqStatus.Pending)) = true
  · left
    simp [createTaskStep, createTaskAssignmentRequest, hc]
  · right
    simp [createTaskStep, createTaskAssignmentRequest, hc]

theorem foldl_createStep_tasks (tid aid : Nat) :
    ∀ (l : List Nat) (acc : SysState × Nat),
      (l.foldl (createTaskStep tid aid) acc).1.tasks = acc.1.tasks := by
  intro l
  induction l with
  | nil => intro acc; rfl
  | cons v rest ih =>
    intro acc
    rw [List.foldl_cons, ih, createStep_tasks]

theorem foldl_pending_mono (tid aid u : Nat) :
    ∀ (l : List Nat) (acc : SysState × Nat),
      (∃ r ∈ acc.1.requests,
        r.taskId = tid ∧ r.assignedToUserId = u ∧ r.status = ReqStatus.Pending) →
      ∃ r ∈ (l.foldl (createTaskStep tid aid) acc).1.requests,
        r.taskId = tid ∧ r.assignedToUserId = u ∧ r.status = ReqStatus.Pending := by
  intro l
  induction l with
  | nil => intro acc h; exact h
  | cons v rest ih =>
    intro acc h
    rw [List.foldl_cons]
    apply ih
    rcases createStep_requests tid aid acc v with he | he
    · rw [he]; exact h
    · rw [he]
      obtain ⟨r, hr, hp⟩ := h
      exact ⟨r, List.mem_append_left _ hr, hp⟩

/-- Folding the creation loop over a candidate list leaves a pending request
for every candidate in the list. -/
theorem foldl_pending_of_mem (tid aid u : Nat) :
    ∀ (l : List Nat) (acc : SysState × Nat), u ∈ l →
      ∃ r ∈ (l.foldl (createTaskStep tid aid) acc).1.requests,
        r.taskId = tid ∧ r.assignedToUserId = u ∧ r.status = ReqStatus.Pending := by
  intro l
  induction l with
  | nil => intro acc h; simp at h
  | cons v rest ih =>
    intro acc hmem
    rw [List.foldl_cons]
    rcases List.mem_cons.mp hmem with heq | hrest
    · subst heq
      apply foldl_pending_mono
      by_cases hc : (acc.1.requests.any fun r =>
          decide (r.taskId = tid) && decide (r.assignedToUserId = u) &&
            decide (r.status = ReqStatus.Pending)) = true
      · have hstep : (createTaskStep tid aid acc u).1.requests = acc.1.requests := by
          simp [createTaskStep, createTaskAssignmentRequest, hc]
        rw [hstep]
        obtain ⟨r, hr, hp⟩ := List.any_eq_true.mp hc
        have hp' : (r.taskId = tid ∧ r.assignedToUserId = u) ∧
            r.status = ReqStatus.Pending := by simpa using hp
        exact ⟨r, hr, hp'.1.1, hp'.1.2, hp'.2⟩
      · have hstep : (createTaskStep tid aid acc u).1.requests
            = acc.1.requests ++ [⟨acc.2, tid, u, aid, ReqStatus.Pending, none⟩] := by
          simp [createTaskStep, createTaskAssignmentRequest, hc]
        rw [hstep]
        exact ⟨⟨acc.2, tid, u, aid, ReqStatus.Pending, none⟩,
          List.mem_append_right _ (by simp), by simp⟩
    · exact ih (createTaskStep tid aid acc v) hrest

/-- Folding the creation loop over candidates distinct from `u'` never adds a
request keyed (tid, u'). -/
theorem foldl_no_pair (tid aid u' : Nat) :
    ∀ (l : List Nat) (acc : SysState × Nat),
      (∀ v ∈ l, v ≠ u') →
      (∀ r ∈ acc.1.requests, ¬(r.taskId = tid ∧ r.assignedToUserId = u')) →
      ∀ r ∈ (l.foldl (createTaskStep tid aid) acc).1.requests,
        ¬(r.taskId = tid ∧ r.assignedToUserId = u') := by
  intro l
  induction l with
  | nil => intro acc _ h; exact h
  | cons v rest ih =>
    intro acc hvs hacc
    rw [List.foldl_cons]
    apply ih
    · intro w hw
      exact hvs w (List.mem_cons_of_mem v hw)
    · rcases createStep_requests tid aid acc v with he | he
      · rw [he]; exact hacc
      · rw [he]
        intro r hr
        rcases List.mem_append.mp hr with h1 | h1
        · exact hacc r h1
        · have hrv : r = ⟨acc.2, tid, v, aid, ReqStatus.Pending, none⟩ := by
            simpa using h1
          subst hrv
          rintro ⟨-, hu⟩
          exact hvs v (List.mem_cons_self v rest) hu

/-- `createTaskAssignmentRequest` reports a conflict exactly when a pending
request for the pair is present. -/
theorem createRequest_conflict_iff (st : SysState) (taskId candId adminId newId : Nat) :
    (createTaskAssignmentRequest st taskId candId adminId newId).1
        = CreateRequestOutcome.conflict
      ↔ ∃ r ∈ st.requests,
          r.taskId = taskId ∧ r.assignedToUserId = candId ∧ r.status = ReqStatus.Pending := by
  unfold createTaskAssignmentRequest
  by_cases hb : (st.requests.any fun r =>
      decide (r.taskId = taskId) && decide (r.assignedToUserId = candId) &&
        decide (r.status = ReqStatus.Pending)) = true
  · rw [if_pos hb]
    constructor
    · intro _
      obtain ⟨r, hr, hp⟩ := List.any_eq_true.mp hb
      have hp' : (r.taskId = taskId ∧ r.assignedToUserId = candId) ∧
          r.status = ReqStatus.Pending := by simpa using hp
      exact ⟨r, hr, hp'.1.1, hp'.1.2, hp'.2⟩
    · intro _
      rfl
  · rw [if_neg hb]
    constructor
    · intro hcontra
      simp at hcontra
    · intro hex
      exfalso
      apply hb
      rw [List.any_eq_true]
      obtain ⟨r, hr, h1, h2, h3⟩ := hex
      exact ⟨r, hr, by simp [h1, h2, h3]⟩

/-- Without a pending duplicate, `createTaskAssignmentRequest` appends a fresh
pending request and leaves the tasks alone. -/
theorem createRequest_created (st : SysState) (taskId candId adminId newId : Nat)
    (hno : ¬ ∃ r ∈ st.requests,
      r.taskId = taskId ∧ r.assignedToUserId = candId ∧ r.status = ReqStatus.Pending) :
    createTaskAssignmentRequest st taskId candId adminId newId
      = (CreateRequestOutcome.created,
         ⟨st.tasks,
          st.requests ++ [⟨newId, taskId, candId, adminId, ReqStatus.Pending, none⟩]⟩) := by
  unfold createTaskAssignmentRequest
  have hb : ¬ (st.requests.any fun r =>
      decide (r.taskId = taskId) && decide (r.assignedToUserId = candId) &&
        decide (r.status = ReqStatus.Pending)) = true := by
    intro hb
    apply hno
    obtain ⟨r, hr, hp⟩ := List.any_eq_true.mp hb
    have hp' : (r.taskId = taskId ∧ r.assignedToUserId = candId) ∧
        r.status = ReqStatus.Pending := by simpa using hp
    exact ⟨r, hr, hp'.1.1, hp'.1.2, hp'.2⟩
  rw [if_neg hb]

/-! ## Claim theorems -/

/-- C1 (corrected): the stored status returned by `getTaskById` can differ
from the Status Resolver's output — here the store holds `Pending Approval`
while the resolver yields `Pending` — so the invariant does not hold at the
`getTaskById` read point. -/
theorem c1_counterexample :
    (getTaskById c1St.tasks 1).map (fun t => t.status) = some TaskStatus.PendingApproval
    ∧ resolveSpec c1Task (requestsFor c1St 1) = TaskStatus.Pending
    ∧ TaskStatus.PendingApproval ≠ TaskStatus.Pending := by
  decide

/-- C1 (amended): the invariant `status = Resolve(checklist, assignedTo,
requestsFor(task))` holds at the `getTasks` read point — every listed task
carries exactly the resolver's status — while `getTaskById` returns the
stored task unresolved, so its status is the raw cached field. -/
theorem c1_read_points :
    ∀ (st : SysState) (tasks : List Task) (taskId : Nat),
      getTasks st = st.tasks.map (fun t => (t, resolveSpec t (requestsFor st t.id)))
      ∧ getTaskById tasks taskId = findTask tasks taskId := by
  intro st tasks taskId
  refine ⟨?_, rfl⟩
  unfold getTasks
  congr 1
  funext t
  rw [resolver_eq]

/-- C2 (confirmed): the status computed by `getTasks` evaluates the spec's
rules in strict precedence order with first match winning: `Rejected` on
`allRejected` or `singleUserRejected`; else `Pending Approval` on any mapped
pending request; else `Completed` on an approved request with a non-empty,
fully completed checklist; else `In Progress` on an approved request with
some completed item; else `Pending` on an approved request with none; else
the stored status unchanged. -/
theorem c2_resolver_precedence :
    ∀ (task : Task) (reqs : List AssignmentRequest),
      getTasksResolvedStatus task reqs = resolveSpec task reqs :=
  resolver_eq

/-- C3 (corrected): approving a request does not recompute the task's status.
Here the approve succeeds, the stored status stays `Pending Approval`, yet
the resolver on the post-approve state yields `Pending`. -/
theorem c3_counterexample :
    respondToAssignmentRequest c3St 1 7 "approve" none
        = (RespondOutcome.approved, c3StAfter)
    ∧ (findTask c3StAfter.tasks 1).map (fun t => t.status)
        = some TaskStatus.PendingApproval
    ∧ resolveSpec c3TaskAfter (requestsFor c3StAfter 1) = TaskStatus.Pending
    ∧ TaskStatus.PendingApproval ≠ TaskStatus.Pending := by
  decide

/-- C3 (amended): approving an existing request addressed to the responder,
for an existing task, marks the request `Approved`, clears its rejection
reason, appends the candidate to `assignedTo` exactly when not already
present — so the candidate's multiplicity afterwards is `max count 1` and a
second approval cannot duplicate it — and leaves the stored task status
untouched (no recompute happens on the approve path). -/
theorem c3_approve_behavior (st : SysState) (reqId respId : Nat)
    (reason : Option String) (request : AssignmentRequest) (task : Task)
    (hfr : findRequest st.requests reqId = some request)
    (hauth : request.assignedToUserId = respId)
    (hft : findTask st.tasks request.taskId = some task) :
    respondToAssignmentRequest st reqId respId "approve" reason =
      (RespondOutcome.approved,
       ⟨if task.assignedTo.contains request.assignedToUserId then st.tasks
        else saveTask st.tasks
          { task with assignedTo := task.assignedTo ++ [request.assignedToUserId] },
        saveRequest st.requests
          { request with status := ReqStatus.Approved, rejectionReason := none }⟩)
    ∧ (findTask (respondToAssignmentRequest st reqId respId "approve" reason).2.tasks
          task.id).map (fun t => t.assignedTo.count request.assignedToUserId)
        = some (max (task.assignedTo.count request.assignedToUserId) 1)
    ∧ (findTask (respondToAssignmentRequest st reqId respId "approve" reason).2.tasks
          task.id).map (fun t => t.status) = some task.status := by
  have hne : ¬ (request.assignedToUserId ≠ respId) := by simp [hauth]
  have hid : task.id = request.taskId := by
    have hft' : st.tasks.find? (fun t => decide (t.id = request.taskId)) = some task := hft
    simpa using List.find?_some hft'
  have hmain : respondToAssignmentRequest st reqId respId "approve" reason =
      (RespondOutcome.approved,
       ⟨if task.assignedTo.contains request.assignedToUserId then st.tasks
        else saveTask st.tasks
          { task with assignedTo := task.assignedTo ++ [request.assignedToUserId] },
        saveRequest st.requests
          { request with status := ReqStatus.Approved, rejectionReason := none }⟩) := by
    unfold respondToAssignmentRequest
    rw [hfr]
    simp only [hft, hne, ite_false, ite_true, if_neg, if_pos]
  refine ⟨hmain, ?_, ?_⟩
  · rw [hmain]
    dsimp only
    by_cases hc : task.assignedTo.contains request.assignedToUserId = true
    · rw [if_pos hc]
      have hfind : findTask st.tasks task.id = some task := by rw [hid]; exact hft
      rw [hfind]
      have hmem : request.assignedToUserId ∈ task.assignedTo := by simpa using hc
      have hcount : 1 ≤ task.assignedTo.count request.assignedToUserId :=
        List.count_pos_iff.mpr hmem
      simp [Nat.max_eq_left hcount]
    · rw [if_neg hc]
      have hfind := findTask_saveTask st.tasks task.id task
        { task with assignedTo := task.assignedTo ++ [request.assignedToUserId] }
        (by rw [hid]; exact hft) rfl
      rw [hfind]
      have hmem : request.assignedToUserId ∉ task.assignedTo := by simpa using hc
      have hzero : task.assignedTo.count request.assignedToUserId = 0 :=
        List.count_eq_zero.mpr hmem
      simp [hzero]
  · rw [hmain]
    dsimp only
    by_cases hc : task.assignedTo.contains request.assignedToUserId = true
    · rw [if_pos hc]
      have hfind : findTask st.tasks task.id = some task := by rw [hid]; exact hft
      rw [hfind]
      rfl
    · rw [if_neg hc]
      have hfind := findTask_saveTask st.tasks task.id task
        { task with assignedTo := task.assignedTo ++ [request.assignedToUserId] }
        (by rw [hid]; exact hft) rfl
      rw [hfind]
      rfl

/-- C3 witness: the amended approve behaviour at the concrete one-candidate
store. -/
theorem c3_witness :
    findRequest c3St.requests 1 = some c3Req
    ∧ c3Req.assignedToUserId = 7
    ∧ findTask c3St.tasks c3Req.taskId = some c3Task
    ∧ (respondToAssignmentRequest c3St 1 7 "approve" none =
        (RespondOutcome.approved,
         ⟨if c3Task.assignedTo.contains c3Req.assignedToUserId then c3St.tasks
          else saveTask c3St.tasks
            { c3Task with assignedTo := c3Task.assignedTo ++ [c3Req.assignedToUserId] },
          saveRequest c3St.requests
            { c3Req with status := ReqStatus.Approved, rejectionReason := none }⟩)
       ∧ (findTask (respondToAssignmentRequest c3St 1 7 "approve" none).2.tasks
            c3Task.id).map (fun t => t.assignedTo.count c3Req.assignedToUserId)
          = some (max (c3Task.assignedTo.count c3Req.assignedToUserId) 1)
       ∧ (findTask (respondToAssignmentRequest c3St 1 7 "approve" none).2.tasks
            c3Task.id).map (fun t => t.status) = some c3Task.status) :=
  ⟨by decide, rfl, by decide,
   c3_approve_behavior c3St 1 7 none c3Req c3Task (by decide) rfl (by decide)⟩

/-- C4 (corrected): a multi-assignee task whose every request is `Rejected`
and which has a direct (requestless) assignee can still resolve to
`Rejected`: the resolver falls through to the stored status, which here is
already `Rejected`.  This refutes the claim's unconditional "must not resolve
to Rejected". -/
theorem c4_counterexample :
    2 ≤ c4Task.assignedTo.length
    ∧ (∀ r ∈ [c4Req], r.status = ReqStatus.Rejected)
    ∧ (2 ∈ c4Task.assignedTo ∧ ∀ r ∈ [c4Req], r.assignedToUserId ≠ 2)
    ∧ getTasksResolvedStatus c4Task [c4Req] = TaskStatus.Rejected := by
  decide

/-- C4 (amended): a single-assignee task whose one user maps to a rejected
request resolves to `Rejected` whatever the checklist holds; a multi-assignee
task with every request rejected and no direct assignee resolves to
`Rejected`; with all requests rejected but at least one direct assignee the
resolver falls through to the stored status, so it does not resolve to
`Rejected` provided the stored status is not already `Rejected`. -/
theorem c4_rejection_rules (task : Task) (reqs : List AssignmentRequest) :
    (∀ uid, task.assignedTo = [uid] →
      specStatusAt reqs uid = some ReqStatus.Rejected →
      getTasksResolvedStatus task reqs = TaskStatus.Rejected)
    ∧ (2 ≤ task.assignedTo.length →
        (∀ r ∈ reqs, r.status = ReqStatus.Rejected) →
        (∀ uid ∈ task.assignedTo, ∃ r ∈ reqs, r.assignedToUserId = uid) →
        getTasksResolvedStatus task reqs = TaskStatus.Rejected)
    ∧ (2 ≤ task.assignedTo.length →
        (∀ r ∈ reqs, r.status = ReqStatus.Rejected) →
        (∃ uid ∈ task.assignedTo, ∀ r ∈ reqs, r.assignedToUserId ≠ uid) →
        task.status ≠ TaskStatus.Rejected →
        getTasksResolvedStatus task reqs ≠ TaskStatus.Rejected) := by
  refine ⟨?_, ?_, ?_⟩
  · intro uid hassigned hstat
    rw [resolver_eq]
    unfold resolveSpec
    have hsingle : specSingleRejectedB task reqs = true := by
      unfold specSingleRejectedB
      rw [hassigned]
      simp [hstat]
    simp [hsingle]
  · intro hlen hrej hcov
    rw [resolver_eq]
    unfold resolveSpec
    have hall : specAllRejectedB task reqs = true := by
      unfold specAllRejectedB
      rw [Bool.and_eq_true]
      constructor
      · simp only [decide_eq_true_eq]
        intro hnil
        rw [hnil] at hlen
        simp at hlen
      · rw [List.all_eq_true]
        intro uid hmem
        obtain ⟨s, hs⟩ := specStatusAt_isSome reqs uid (hcov uid hmem)
        obtain ⟨r, hrmem, -, hstat⟩ := specStatusAt_eq_some reqs uid s hs
        have hsr : s = ReqStatus.Rejected := by
          rw [← hstat]
          exact hrej r hrmem
        subst hsr
        simp [hs]
    simp [hall]
  · intro hlen hrej hdirect hstored
    rw [resolver_eq]
    unfold resolveSpec
    obtain ⟨uid, hmem, hnone⟩ := hdirect
    have hnot : specStatusAt reqs uid = none := specStatusAt_eq_none reqs uid hnone
    have hall : specAllRejectedB task reqs = false := by
      unfold specAllRejectedB
      have hfail : task.assignedTo.all
          (fun u => decide (specStatusAt reqs u = some ReqStatus.Rejected)) = false := by
        rw [Bool.eq_false_iff]
        intro hcontra
        have := List.all_eq_true.mp hcontra uid hmem
        rw [hnot] at this
        simp at this
      simp [hfail]
    have hsingle : specSingleRejectedB task reqs = false := by
      unfold specSingleRejectedB
      have hone : decide (task.assignedTo.length = 1) = false := by
        simp
        omega
      simp [hone]
    have hpend : specAnyPendingB reqs = false := by
      unfold specAnyPendingB
      rw [Bool.eq_false_iff]
      intro hcontra
      obtain ⟨u, humem, hu⟩ := List.any_eq_true.mp hcontra
      have hu' : specStatusAt reqs u = some ReqStatus.Pending := by simpa using hu
      obtain ⟨r, hrmem, -, hstat⟩ := specStatusAt_eq_some reqs u ReqStatus.Pending hu'
      have hr := hrej r hrmem
      rw [hr] at hstat
      exact absurd hstat (by decide)
    have happr : specAnyApprovedB reqs = false := by
      unfold specAnyApprovedB
      rw [Bool.eq_false_iff]
      intro hcontra
      obtain ⟨u, humem, hu⟩ := List.any_eq_true.mp hcontra
      have hu' : specStatusAt reqs u = some ReqStatus.Approved := by simpa using hu
      obtain ⟨r, hrmem, -, hstat⟩ := specStatusAt_eq_some reqs u ReqStatus.Approved hu'
      have hr := hrej r hrmem
      rw [hr] at hstat
      exact absurd hstat (by decide)
    simp [hall, hsingle, hpend, happr]
    exact hstored

/-- C4 witness: the single-rejected rule at a concrete task whose checklist is
fully completed. -/
theorem c4_witness :
    c4wTask.assignedTo = [5]
    ∧ specStatusAt [c4wReq] 5 = some ReqStatus.Rejected
    ∧ c4wTask.todoChecklist.all (fun item => item.completed) = true
    ∧ getTasksResolvedStatus c4wTask [c4wReq] = TaskStatus.Rejected :=
  ⟨rfl, by decide, by decide,
   (c4_rejection_rules c4wTask [c4wReq]).1 5 rfl (by decide)⟩

/-- C5 (confirmed): a reject response on an existing request addressed to the
responder, whose task exists, marks the request rejected (reason set from the
caller, empty collapsed to null) and stores on the task exactly the status of
the spec's narrow reject rule, computed from the task's own requests after
the rejection and its pre-existing `assignedTo`. -/
theorem c5_reject_recompute (st : SysState) (reqId respId : Nat)
    (reason : Option String) (request : AssignmentRequest) (task : Task)
    (hfr : findRequest st.requests reqId = some request)
    (hauth : request.assignedToUserId = respId)
    (hft : findTask st.tasks request.taskId = some task) :
    respondToAssignmentRequest st reqId respId "reject" reason =
      (RespondOutcome.rejected,
       ⟨saveTask st.tasks { task with status := rejectRuleSpec task ((saveRequest st.requests { request with status := ReqStatus.Rejected, rejectionReason := jsOrNull reason }).filter (fun r => decide (r.taskId = request.taskId))) },
        saveRequest st.requests { request with status := ReqStatus.Rejected, rejectionReason := jsOrNull reason }⟩) := by
  have hne : ¬ (request.assignedToUserId ≠ respId) := by simp [hauth]
  unfold respondToAssignmentRequest
  rw [hfr]
  simp only [hft, hne, ite_false, ite_true, if_neg, if_pos]
  rw [rejectRecompute_eq_spec]
  simp

/-- C5 witness: rejecting the only pending request of a task with no direct
assignee; the narrow rule yields `Rejected` and the handler stores it. -/
theorem c5_witness :
    findRequest c5St.requests 1 = some c5Req
    ∧ c5Req.assignedToUserId = 7
    ∧ findTask c5St.tasks c5Req.taskId = some c5Task
    ∧ respondToAssignmentRequest c5St 1 7 "reject" none =
        (RespondOutcome.rejected,
         ⟨saveTask c5St.tasks { c5Task with status := rejectRuleSpec c5Task ((saveRequest c5St.requests { c5Req with status := ReqStatus.Rejected, rejectionReason := jsOrNull none }).filter (fun r => decide (r.taskId = c5Req.taskId))) },
          saveRequest c5St.requests { c5Req with status := ReqStatus.Rejected, rejectionReason := jsOrNull none }⟩) :=
  ⟨by decide, rfl, by decide,
   c5_reject_recompute c5St 1 7 none c5Req c5Task (by decide) rfl (by decide)⟩

set_option maxRecDepth 10000 in
/-- C6 (corrected): two failures of the claim.  After a checklist replacement
with 199 of 200 items completed, `progress = round(100*199/200) = 100` even
though an item is incomplete, refuting `progress = 100 → all completed`; and
`updateTask` replaces the checklist while leaving `progress` untouched (0
where the round formula gives 100), refuting the invariant "after every
operation that touches the checklist". -/
theorem c6_counterexample :
    (updateTaskChecklist [c6Task] 1 5 true c6Checklist).1 = ChecklistOutcome.ok c6TaskAfter
    ∧ c6TaskAfter.progress = 100
    ∧ c6TaskAfter.todoChecklist.all (fun item => item.completed) = false
    ∧ (updateTask [c6Task] 1 (some [⟨"x", true⟩])).1
        = UpdateOutcome.ok ⟨1, [], [⟨"x", true⟩], 0, TaskStatus.Pending, Priority.Low⟩
    ∧ mathRound100 1 1 = 100
    ∧ (0 : Nat) ≠ 100 := by
  decide

/-- C6 (amended): after a successful `updateTaskChecklist`, `progress` equals
`round(100*completed/total)` (0 for an empty checklist) and a non-empty fully
completed checklist yields `progress = 100`; the converse direction of the
claimed equivalence fails (see the counterexample), and the invariant is not
maintained by `updateTask`. -/
theorem c6_progress_invariant (tasks : List Task) (taskId userId : Nat)
    (isAdmin : Bool) (cl : List ChecklistItem) (t' : Task) (tasks' : List Task)
    (h : updateTaskChecklist tasks taskId userId isAdmin cl
        = (ChecklistOutcome.ok t', tasks')) :
    t'.progress = (if cl.length > 0 then
        mathRound100 (cl.filter (fun item => item.completed)).length cl.length else 0)
    ∧ t'.todoChecklist = cl
    ∧ (cl ≠ [] → (∀ item ∈ cl, item.completed = true) → t'.progress = 100) := by
  unfold updateTaskChecklist at h
  split at h
  · simp at h
  · rename_i task hfind
    split at h
    · simp at h
    · split at h
      · simp at h
      · simp only [Prod.mk.injEq] at h
        obtain ⟨h1, -⟩ := h
        injection h1 with h1
        subst h1
        refine ⟨rfl, rfl, ?_⟩
        intro hne hall
        have hfilter : cl.filter (fun item => item.completed) = cl :=
          List.filter_eq_self.mpr (by intro a ha; simp [hall a ha])
        have hpos : cl.length > 0 := List.length_pos.mpr hne
        simp only [hfilter, if_pos hpos]
        exact mathRound100_self cl.length hpos

set_option maxRecDepth 10000 in
/-- C6 witness: the amended invariant evaluated on the 200-item checklist. -/
theorem c6_witness :
    updateTaskChecklist [c6Task] 1 5 true c6Checklist
        = (ChecklistOutcome.ok c6TaskAfter, [c6TaskAfter])
    ∧ (c6TaskAfter.progress = (if c6Checklist.length > 0 then
          mathRound100 (c6Checklist.filter (fun item => item.completed)).length
            c6Checklist.length else 0)
       ∧ c6TaskAfter.todoChecklist = c6Checklist
       ∧ (c6Checklist ≠ [] → (∀ item ∈ c6Checklist, item.completed = true) →
            c6TaskAfter.progress = 100)) :=
  ⟨by decide,
   c6_progress_invariant [c6Task] 1 5 true c6Checklist c6TaskAfter [c6TaskAfter]
     (by decide)⟩

/-- C7 (confirmed): request creation conflicts exactly when a pending request
for the (task, candidate) pair exists; otherwise it appends one fresh pending
request without touching any task; and once the pair's only pending request
has been responded to (approved or rejected), a new creation for the same
pair succeeds. -/
theorem c7_create_request (st : SysState) (taskId candId adminId newId : Nat) :
    ((createTaskAssignmentRequest st taskId candId adminId newId).1
        = CreateRequestOutcome.conflict
      ↔ ∃ r ∈ st.requests,
          r.taskId = taskId ∧ r.assignedToUserId = candId ∧ r.status = ReqStatus.Pending)
    ∧ ((¬ ∃ r ∈ st.requests,
          r.taskId = taskId ∧ r.assignedToUserId = candId ∧ r.status = ReqStatus.Pending) →
        createTaskAssignmentRequest st taskId candId adminId newId
          = (CreateRequestOutcome.created,
             ⟨st.tasks,
              st.requests ++ [⟨newId, taskId, candId, adminId, ReqStatus.Pending, none⟩]⟩))
    ∧ (∀ (reqId respId : Nat) (action : String) (reason : Option String)
          (outcome : RespondOutcome) (st2 : SysState),
        respondToAssignmentRequest st reqId respId action reason = (outcome, st2) →
        (outcome = RespondOutcome.approved ∨ outcome = RespondOutcome.rejected) →
        (∀ r ∈ st.requests, r.taskId = taskId → r.assignedToUserId = candId →
          r.status = ReqStatus.Pending → r.id = reqId) →
        (createTaskAssignmentRequest st2 taskId candId adminId newId).1
          = CreateRequestOutcome.created) := by
  refine ⟨createRequest_conflict_iff st taskId candId adminId newId, ?_, ?_⟩
  · intro hno
    exact createRequest_created st taskId candId adminId newId hno
  · intro reqId respId action reason outcome st2 hresp hout huniq
    obtain ⟨r', hrid, hrstat, hrreq⟩ :=
      respond_requests_shape st reqId respId action reason outcome st2 hresp hout
    cases hres : (createTaskAssignmentRequest st2 taskId candId adminId newId).1 with
    | created => rfl
    | conflict =>
      exfalso
      obtain ⟨q, hq, h1, h2, h3⟩ :=
        (createRequest_conflict_iff st2 taskId candId adminId newId).mp hres
      rw [hrreq] at hq
      unfold saveRequest at hq
      obtain ⟨q0, hq0, hq0e⟩ := List.mem_map.mp hq
      by_cases hidq : q0.id = r'.id
      · rw [if_pos hidq] at hq0e
        subst hq0e
        exact hrstat h3
      · rw [if_neg hidq] at hq0e
        subst hq0e
        have := huniq q0 hq0 h1 h2 h3
        rw [hrid] at hidq
        exact hidq this

/-- C7 witness: with one pending request for the pair, creation conflicts;
after that request is rejected, creation for the same pair succeeds. -/
theorem c7_witness :
    (createTaskAssignmentRequest c7St 1 2 3 5).1 = CreateRequestOutcome.conflict
    ∧ respondToAssignmentRequest c7St 1 2 "reject" none
        = (RespondOutcome.rejected, c7StAfter)
    ∧ (createTaskAssignmentRequest c7StAfter 1 2 3 5).1 = CreateRequestOutcome.created :=
  ⟨(c7_create_request c7St 1 2 3 5).1.mpr
      ⟨⟨1, 1, 2, 3, ReqStatus.Pending, none⟩, by decide, by decide, by decide, by decide⟩,
   by decide,
   (c7_create_request c7St 1 2 3 5).2.2 1 2 "reject" none RespondOutcome.rejected
     c7StAfter (by decide) (Or.inr rfl) (by decide)⟩

/-- C8 (confirmed): replacing the checklist of an existing task as an
authorized user fails with the rejected-task `Forbidden` and leaves the tasks
untouched when the current status is `Rejected`; otherwise it stores
`progress = round(100*completed/total)` (0 when empty) and sets the status
from progress alone: 100 gives `Completed`, strictly between 0 and 100 gives
`In Progress`, 0 gives `Pending`. -/
theorem c8_checklist_update (tasks : List Task) (taskId userId : Nat)
    (isAdmin : Bool) (cl : List ChecklistItem) (task : Task)
    (hfind : findTask tasks taskId = some task)
    (hauth : task.assignedTo.contains userId = true ∨ isAdmin = true) :
    (task.status = TaskStatus.Rejected →
      updateTaskChecklist tasks taskId userId isAdmin cl
        = (ChecklistOutcome.rejectedForbidden, tasks))
    ∧ (task.status ≠ TaskStatus.Rejected →
      ∃ t', updateTaskChecklist tasks taskId userId isAdmin cl
          = (ChecklistOutcome.ok t', saveTask tasks t')
        ∧ t'.todoChecklist = cl
        ∧ t'.progress = (if cl.length > 0 then
            mathRound100 (cl.filter (fun item => item.completed)).length cl.length else 0)
        ∧ (t'.progress = 100 → t'.status = TaskStatus.Completed)
        ∧ (0 < t'.progress → t'.progress < 100 → t'.status = TaskStatus.InProgress)
        ∧ (t'.progress = 0 → t'.status = TaskStatus.Pending)) := by
  have hauthB : (!task.assignedTo.contains userId && !isAdmin) = false := by
    rcases hauth with ha | ha
    · rw [ha]
      simp
    · rw [ha]
      simp
  constructor
  · intro hrej
    unfold updateTaskChecklist
    rw [hfind]
    simp only [hauthB, Bool.false_eq_true, if_false, ite_false]
    rw [if_pos hrej]
  · intro hrej
    unfold updateTaskChecklist
    rw [hfind]
    simp only [hauthB, Bool.false_eq_true, if_false, ite_false]
    rw [if_neg hrej]
    generalize (if cl.length > 0 then
        mathRound100 (cl.filter (fun item => item.completed)).length cl.length
        else 0) = p
    refine ⟨_, rfl, rfl, rfl, ?_, ?_, ?_⟩
    · intro hp
      dsimp only at hp ⊢
      rw [if_pos hp]
    · intro hp1 hp2
      dsimp only at hp1 hp2 ⊢
      rw [if_neg (by omega), if_pos hp1]
    · intro hp
      dsimp only at hp ⊢
      rw [if_neg (by omega), if_neg (by omega)]

/-- C8 witness: half-completed checklist on a pending task gives progress 50
and `In Progress`. -/
theorem c8_witness :
    findTask [c8Task] 1 = some c8Task
    ∧ (c8Task.assignedTo.contains 5 = true ∨ false = true)
    ∧ c8Task.status ≠ TaskStatus.Rejected
    ∧ ∃ t', updateTaskChecklist [c8Task] 1 5 false c8Checklist
          = (ChecklistOutcome.ok t', saveTask [c8Task] t')
        ∧ t'.todoChecklist = c8Checklist
        ∧ t'.progress = (if c8Checklist.length > 0 then
            mathRound100 (c8Checklist.filter (fun item => item.completed)).length
              c8Checklist.length else 0)
        ∧ (t'.progress = 100 → t'.status = TaskStatus.Completed)
        ∧ (0 < t'.progress → t'.progress < 100 → t'.status = TaskStatus.InProgress)
        ∧ (t'.progress = 0 → t'.status = TaskStatus.Pending) :=
  ⟨by decide, Or.inl (by decide), by decide,
   (c8_checklist_update [c8Task] 1 5 false c8Checklist c8Task (by decide)
      (Or.inl (by decide))).2 (by decide)⟩

/-- C9 (confirmed): the overload check counts exactly the High-priority
non-Completed tasks assigned to the user and fires at two or more; at task
creation every overloaded candidate is left out of `assignedTo` and receives
a pending request for the new task, while every non-overloaded candidate is
assigned directly and no request for the new task mentions them. -/
theorem c9_overload_partition (st : SysState) (assignedTo : List Nat)
    (priority : Priority) (cl : List ChecklistItem)
    (adminId newTaskId baseReqId u : Nat)
    (hfresh : ∀ r ∈ st.requests, r.taskId ≠ newTaskId)
    (hu : u ∈ assignedTo) :
    (isOverloaded st.tasks u = true ↔
      2 ≤ (st.tasks.filter (fun t => decide (u ∈ t.assignedTo) &&
            decide (t.priority = Priority.High) &&
            decide (¬ t.status = TaskStatus.Completed))).length)
    ∧ (isOverloaded st.tasks u = true →
        u ∉ (createTask st assignedTo priority cl adminId newTaskId baseReqId).2.assignedTo
        ∧ ∃ r ∈ (createTask st assignedTo priority cl adminId newTaskId baseReqId).1.requests,
            r.taskId = newTaskId ∧ r.assignedToUserId = u ∧ r.status = ReqStatus.Pending)
    ∧ (isOverloaded st.tasks u = false →
        u ∈ (createTask st assignedTo priority cl adminId newTaskId baseReqId).2.assignedTo
        ∧ ∀ r ∈ (createTask st assignedTo priority cl adminId newTaskId baseReqId).1.requests,
            ¬(r.taskId = newTaskId ∧ r.assignedToUserId = u)) := by
  have hcount : (st.tasks.filter (fun t => t.assignedTo.contains u &&
        decide (t.priority = Priority.High) && !decide (t.status = TaskStatus.Completed)))
      = (st.tasks.filter (fun t => decide (u ∈ t.assignedTo) &&
        decide (t.priority = Priority.High) && decide (¬ t.status = TaskStatus.Completed))) := by
    apply List.filter_congr
    intro t _
    by_cases hm : u ∈ t.assignedTo <;> simp [hm, decide_not]
  refine ⟨?_, ?_, ?_⟩
  · unfold isOverloaded
    rw [hcount]
    simp
  · intro hover
    constructor
    · intro hmem
      have hpred := (List.mem_filter.mp hmem).2
      rw [hover] at hpred
      simp at hpred
    · show ∃ r ∈ ((assignedTo.filter (fun v => isOverloaded st.tasks v)).foldl
          (createTaskStep newTaskId adminId)
          (⟨⟨st.tasks ++ [⟨newTaskId, assignedTo.filter (fun v => !isOverloaded st.tasks v),
              cl, 0, TaskStatus.Pending, priority⟩], st.requests⟩, baseReqId⟩)).1.requests,
        r.taskId = newTaskId ∧ r.assignedToUserId = u ∧ r.status = ReqStatus.Pending
      exact foldl_pending_of_mem newTaskId adminId u _ _
        (List.mem_filter.mpr ⟨hu, hover⟩)
  · intro hnot
    constructor
    · exact List.mem_filter.mpr ⟨hu, by simp [hnot]⟩
    · show ∀ r ∈ ((assignedTo.filter (fun v => isOverloaded st.tasks v)).foldl
          (createTaskStep newTaskId adminId)
          (⟨⟨st.tasks ++ [⟨newTaskId, assignedTo.filter (fun v => !isOverloaded st.tasks v),
              cl, 0, TaskStatus.Pending, priority⟩], st.requests⟩, baseReqId⟩)).1.requests,
        ¬(r.taskId = newTaskId ∧ r.assignedToUserId = u)
      apply foldl_no_pair
      · intro v hv heq
        have hvover := (List.mem_filter.mp hv).2
        rw [heq, hnot] at hvover
        simp at hvover
      · intro r hr
        rintro ⟨h1, -⟩
        exact hfresh r hr h1

/-- C9 witness: with user 7 carrying two active High tasks and user 8 none,
creating a task for [7, 8] assigns 8 directly and routes 7 through a pending
request. -/
theorem c9_witness :
    c9St.requests = []
    ∧ 7 ∈ [7, 8]
    ∧ isOverloaded c9St.tasks 7 = true
    ∧ 7 ∉ (createTask c9St [7, 8] Priority.High [] 3 100 500).2.assignedTo
    ∧ (∃ r ∈ (createTask c9St [7, 8] Priority.High [] 3 100 500).1.requests,
        r.taskId = 100 ∧ r.assignedToUserId = 7 ∧ r.status = ReqStatus.Pending) :=
  ⟨rfl, by decide, by decide,
   ((c9_overload_partition c9St [7, 8] Priority.High [] 3 100 500 7
      (by decide) (by decide)).2.1 (by decide)).1,
   ((c9_overload_partition c9St [7, 8] Priority.High [] 3 100 500 7
      (by decide) (by decide)).2.1 (by decide)).2⟩

/-- C10 (confirmed): responding to an existing request addressed to the
responder whose task is missing from the store: approval fails with the task
`NotFound` and leaves the store untouched, while rejection succeeds, marks
the request rejected with its reason set, and leaves the task collection
unchanged (the status recompute is silently skipped). -/
theorem c10_missing_task (st : SysState) (reqId respId : Nat)
    (reason : Option String) (request : AssignmentRequest)
    (hfr : findRequest st.requests reqId = some request)
    (hauth : request.assignedToUserId = respId)
    (hft : findTask st.tasks request.taskId = none) :
    respondToAssignmentRequest st reqId respId "approve" reason
        = (RespondOutcome.taskNotFound, st)
    ∧ respondToAssignmentRequest st reqId respId "reject" reason =
        (RespondOutcome.rejected,
         ⟨st.tasks, saveRequest st.requests { request with status := ReqStatus.Rejected, rejectionReason := jsOrNull reason }⟩) := by
  have hne : ¬ (request.assignedToUserId ≠ respId) := by simp [hauth]
  constructor
  · unfold respondToAssignmentRequest
    rw [hfr]
    simp only [hft, hne, ite_false, ite_true, if_neg, if_pos]
  · unfold respondToAssignmentRequest
    rw [hfr]
    simp only [hft, hne, ite_false, ite_true, if_neg, if_pos]
    rw [if_neg (by decide : ¬ ("reject" = "approve"))]

/-- C10 witness: the two behaviours at a request whose task id 9 has no task. -/
theorem c10_witness :
    findRequest c10St.requests 1 = some c10Req
    ∧ c10Req.assignedToUserId = 4
    ∧ findTask c10St.tasks c10Req.taskId = none
    ∧ respondToAssignmentRequest c10St 1 4 "approve" (some "hi")
        = (RespondOutcome.taskNotFound, c10St)
    ∧ respondToAssignmentRequest c10St 1 4 "reject" (some "hi") =
        (RespondOutcome.rejected,
         ⟨c10St.tasks, saveRequest c10St.requests { c10Req with status := ReqStatus.Rejected, rejectionReason := jsOrNull (some "hi") }⟩) := by
  have h := c10_missing_task c10St 1 4 (some "hi") c10Req (by decide) rfl (by decide)
  exact ⟨by decide, rfl, by decide, h.1, h.2⟩

end KPRHI
